import Mathlib

/-!
# Verification of the HR employee system (employee.py / gui.py)

A shallow embedding of the employee model of `employee.py` and the
record serialization / reconstruction code of `gui.py`.

Modelling conventions:
* Python strings are modelled as `List Char`.
* Python floats holding money amounts are modelled as rationals (`ℚ`);
  the decimal literals appearing in the source (`50_000.00`, `15.00`,
  `99.99`) are exactly representable, so the comparisons in the source
  translate verbatim.
* A property setter `self.f = v` that validates and either raises or
  assigns is modelled as a function `Employee → α → Employee × Option HRError`:
  the returned employee is the post-state (unchanged when an error is
  reported, exactly as the source raises before any assignment).
* Exception messages are not modelled; only the exception class
  (`ValueError`, `InvalidRoleException`, `InvalidDepartmentException`) is.
* The class-level id counter `Employee._current_id` is threaded
  explicitly through the constructors.
-/

namespace HR

/-! ## Text utilities (Python `str` modelled as `List Char`) -/

/-- Python substring containment `needle in hay` on character lists. -/
def containsSub (needle : List Char) : List Char → Bool
  | [] => needle.isEmpty
  | c :: t => needle.isPrefixOf (c :: t) || containsSub needle t

/-- Join fields with a comma separator, as the nested f-strings of the
`__repr__` methods do. -/
def joinComma : List (List Char) → List Char
  | [] => []
  | [x] => x
  | x :: xs => x ++ ',' :: joinComma xs

/-- Split a character list at every comma.  This models `csv.reader` with
`QUOTE_MINIMAL` on records that contain no quote characters, which is how
`MainWindow.load_file` splits a saved line back into fields. -/
def splitOnComma : List Char → List (List Char)
  | [] => [[]]
  | c :: rest =>
    if c = ',' then [] :: splitOnComma rest
    else
      match splitOnComma rest with
      | [] => [[c]]
      | f :: fs => (c :: f) :: fs

/-- Decimal digit character for `d < 10`. -/
def digitChar (d : Nat) : Char := Char.ofNat (48 + d)

/-- Fuel-indexed digit-printing loop; `fuel > n` always suffices, and the
fuel makes the definition reduce inside the kernel. -/
def natReprAux (fuel n : Nat) : List Char :=
  match fuel with
  | 0 => []
  | fuel + 1 =>
    if n < 10 then [digitChar n]
    else natReprAux fuel (n / 10) ++ [digitChar (n % 10)]

/-- Decimal representation of a natural number, most significant digit
first; models Python `str` / `format` on a nonnegative int. -/
def natRepr (n : Nat) : List Char := natReprAux (n + 1) n

/-- Left-pad a number with zeros to width `w`, as `%02d`-style padding in
Python's `str(datetime)` and two-decimal formatting do. -/
def padTo (w n : Nat) : List Char :=
  List.replicate (w - (natRepr n).length) '0' ++ natRepr n

/-- Decimal representation of an integer (models Python `str(int)`). -/
def intRepr (i : Int) : List Char :=
  if i < 0 then '-' :: natRepr i.natAbs else natRepr i.toNat

/-- Accumulator loop of the digit-string parser. -/
def parseDigitsAux (acc : Nat) : List Char → Option Nat
  | [] => some acc
  | c :: cs =>
    if c.isDigit then parseDigitsAux (10 * acc + (c.toNat - 48)) cs else none

/-- Parse a nonempty, all-digit character list into a natural number. -/
def parseDigits (l : List Char) : Option Nat :=
  if l.isEmpty then none else parseDigitsAux 0 l

/-- Parse an optionally `-`-signed digit string; models Python `int(s)`
on the inputs this program feeds it. -/
def parseInt (l : List Char) : Option Int :=
  match l with
  | '-' :: rest => (parseDigits rest).map (fun n => -(n : Int))
  | l => (parseDigits l).map (fun n => (n : Int))

/-- Parse a nonnegative decimal numeral with an optional fractional part;
models Python `float(s)` on the decimal strings this program feeds it. -/
def parseDecimal (s : List Char) : Option ℚ :=
  let intPart := s.takeWhile (· ≠ '.')
  match s.dropWhile (· ≠ '.') with
  | [] => (parseDigits intPart).map (fun n => (n : ℚ))
  | _ :: frac =>
    match parseDigits intPart, parseDigits frac with
    | some n, some f => some ((n : ℚ) + (f : ℚ) / (10 : ℚ) ^ frac.length)
    | _, _ => none

/-- Round a nonnegative rational to a whole number of cents, to nearest
(ties upward); models the rounding performed by Python's `f"{x:.2f}"` on
the non-tie values this development evaluates it at. -/
def toCents (q : ℚ) : Nat := (⌊q * 100 + 1 / 2⌋).toNat

/-- Format a nonnegative rational with exactly two decimal places;
models Python `f"{x:.2f}"`. -/
def format2dp (q : ℚ) : List Char :=
  natRepr (toCents q / 100) ++ '.' :: padTo 2 (toCents q % 100)

/-! ## Dates

`Permanent.hired_date` and `Temp.last_day` hold `datetime.datetime`
values produced by `datetime.strptime(s, '%Y-%m-%d %H:%M:%S')` and
rendered by `str(datetime)` as `YYYY-MM-DD HH:MM:SS`.  Only that format
(no microseconds, no time zone) occurs in this program, so a date is
modelled by its six components. -/

structure DateTime where
  year : Nat
  month : Nat
  day : Nat
  hour : Nat
  minute : Nat
  second : Nat
deriving DecidableEq, Repr

/-- Gregorian leap-year rule, as `datetime` uses. -/
def isLeap (y : Nat) : Bool := (y % 4 = 0 && y % 100 ≠ 0) || y % 400 = 0

/-- Number of days in a month of a given year. -/
def daysInMonth (y m : Nat) : Nat :=
  if m = 2 then (if isLeap y then 29 else 28)
  else if m = 4 ∨ m = 6 ∨ m = 9 ∨ m = 11 then 30
  else 31

/-- Range checks enforced by `datetime`: these are exactly the component
values `datetime.strptime` accepts. -/
def DateTime.valid (d : DateTime) : Bool :=
  1 ≤ d.year && d.year ≤ 9999 &&
  1 ≤ d.month && d.month ≤ 12 &&
  1 ≤ d.day && d.day ≤ daysInMonth d.year d.month &&
  d.hour ≤ 23 && d.minute ≤ 59 && d.second ≤ 59

/-- Rendering of a datetime by Python `str`, zero-padded
`YYYY-MM-DD HH:MM:SS`. -/
def formatDT (d : DateTime) : List Char :=
  padTo 4 d.year ++ '-' :: padTo 2 d.month ++ '-' :: padTo 2 d.day ++
    ' ' :: padTo 2 d.hour ++ ':' :: padTo 2 d.minute ++ ':' :: padTo 2 d.second

/-- Split a string at the first occurrence of a separator character,
failing when the separator is absent. -/
def splitField (sep : Char) (s : List Char) : Option (List Char × List Char) :=
  match s.dropWhile (· ≠ sep) with
  | [] => none
  | _ :: rest => some (s.takeWhile (· ≠ sep), rest)

/-- Parse `YYYY-MM-DD HH:MM:SS`; models
`datetime.strptime(s, '%Y-%m-%d %H:%M:%S')` on zero-padded input, the
only shape this program produces. -/
def parseDatetime (s : List Char) : Option DateTime :=
  (splitField '-' s).bind fun p1 =>
  (splitField '-' p1.2).bind fun p2 =>
  (splitField ' ' p2.2).bind fun p3 =>
  (splitField ':' p3.2).bind fun p4 =>
  (splitField ':' p4.2).bind fun p5 =>
  (parseDigits p1.1).bind fun y =>
  (parseDigits p2.1).bind fun mo =>
  (parseDigits p3.1).bind fun da =>
  (parseDigits p4.1).bind fun h =>
  (parseDigits p5.1).bind fun mi =>
  (parseDigits p5.2).bind fun se =>
  if (DateTime.mk y mo da h mi se).valid then some ⟨y, mo, da, h, mi, se⟩
  else none

/-! ## The model of `employee.py` -/

/-- Enumerated role class (`Role`), values 1–3. -/
inductive Role
  | ceo
  | cfo
  | cio
deriving DecidableEq, Repr

/-- The `value` of a `Role` member. -/
def Role.value : Role → Int
  | .ceo => 1
  | .cfo => 2
  | .cio => 3

/-- The partial inverse `Role(v)` used by the role setter. -/
def Role.fromValue? : Int → Option Role
  | 1 => some .ceo
  | 2 => some .cfo
  | 3 => some .cio
  | _ => none

/-- Enumerated department class (`Department`), values 1–5. -/
inductive Department
  | accounting
  | finance
  | hr
  | r_and_d
  | machining
deriving DecidableEq, Repr

/-- The `value` of a `Department` member. -/
def Department.value : Department → Int
  | .accounting => 1
  | .finance => 2
  | .hr => 3
  | .r_and_d => 4
  | .machining => 5

/-- The partial inverse `Department(v)` used by the department setter. -/
def Department.fromValue? : Int → Option Department
  | 1 => some .accounting
  | 2 => some .finance
  | 3 => some .hr
  | 4 => some .r_and_d
  | 5 => some .machining
  | _ => none

/-- The exception classes the module raises.  Messages are not modelled. -/
inductive HRError
  | valueError
  | invalidRoleException
  | invalidDepartmentException
deriving DecidableEq, Repr

/-- The subclass-specific payload: which concrete class the object is,
together with its extra attribute.  `Executive`/`Manager` are the
`Salaried` kinds, `Permanent`/`Temp` the `Hourly` kinds. -/
inductive Extra
  | role (r : Role)
  | department (d : Department)
  | hired_date (d : DateTime)
  | last_day (d : DateTime)
deriving DecidableEq, Repr

/-- One employee object.  `pay` holds `_yearly` for the `Salaried` kinds
and `_hourly` for the `Hourly` kinds. -/
structure Employee where
  name : List Char
  email : List Char
  image : List Char
  id_number : Nat
  pay : ℚ
  extra : Extra
deriving DecidableEq, Repr

/-- Whether the object is an instance of `Salaried`. -/
def Employee.isSalaried (e : Employee) : Bool :=
  match e.extra with
  | .role _ | .department _ => true
  | .hired_date _ | .last_day _ => false

/-- The class constant `Employee.IMAGE_PLACEHOLDER`. -/
def IMAGE_PLACEHOLDER : List Char :=
  "./imagesForProject2CIS163/placeholder.png".toList

/-- The company domain string the email setter requires. -/
def domainSuffix : List Char := "@acme-machining.com".toList

/-! ### Property setters

Each Python property setter validates and either raises (before any
assignment) or assigns one field.  The model returns the post-state and
an optional raised exception. -/

/-- Setter `Employee.name`: rejects an empty string. -/
def set_name (e : Employee) (new_name : List Char) : Employee × Option HRError :=
  if new_name.length ≤ 0 then (e, some .valueError)
  else ({ e with name := new_name }, none)

/-- Setter `Employee.email`: rejects an empty string and one not
containing `"@acme-machining.com"`. -/
def set_email (e : Employee) (new_email : List Char) : Employee × Option HRError :=
  if new_email.length ≤ 0 || !containsSub domainSuffix new_email then (e, some .valueError)
  else ({ e with email := new_email }, none)

/-- Setter `Employee.image`: rejects an empty string. -/
def set_image (e : Employee) (new_image : List Char) : Employee × Option HRError :=
  if new_image.length = 0 then (e, some .valueError)
  else ({ e with image := new_image }, none)

/-- Setter `Salaried.yearly`, after the `float(...)` conversion:
rejects any amount `≤ 50000.00`. -/
def set_yearly (e : Employee) (yearly_amount : ℚ) : Employee × Option HRError :=
  if yearly_amount ≤ 50000 then (e, some .valueError)
  else ({ e with pay := yearly_amount }, none)

/-- Setter `Salaried.yearly` on a string argument: the setter first runs
`yearly_amount = float(yearly_amount)`, which raises `ValueError` on an
unparsable string. -/
def set_yearly_str (e : Employee) (s : List Char) : Employee × Option HRError :=
  match parseDecimal s with
  | none => (e, some .valueError)
  | some x => set_yearly e x

/-- Setter `Hourly.hourly`, after the `float(...)` conversion:
rejects any rate outside `[15.00, 99.99]`. -/
def set_hourly (e : Employee) (new_hourly : ℚ) : Employee × Option HRError :=
  if !(decide (15 ≤ new_hourly) && decide (new_hourly ≤ 99.99)) then (e, some .valueError)
  else ({ e with pay := new_hourly }, none)

/-- Setter `Hourly.hourly` on a string argument (`float(...)` first). -/
def set_hourly_str (e : Employee) (s : List Char) : Employee × Option HRError :=
  match parseDecimal s with
  | none => (e, some .valueError)
  | some x => set_hourly e x

/-- Setter `Executive.role`: accepts exactly the `value`s of `Role`
members and stores `Role(new_role)`; otherwise raises
`InvalidRoleException`. -/
def set_role (e : Employee) (new_role : Int) : Employee × Option HRError :=
  match Role.fromValue? new_role with
  | some r => ({ e with extra := .role r }, none)
  | none => (e, some .invalidRoleException)

/-- The `int(role)` conversion in `Executive.__init__` followed by the
role setter; `int(...)` raises `ValueError` on an unparsable string. -/
def set_role_str (e : Employee) (s : List Char) : Employee × Option HRError :=
  match parseInt s with
  | none => (e, some .valueError)
  | some v => set_role e v

/-- Setter `Manager.department`: accepts exactly the `value`s of
`Department` members and stores `Department(new_dept)`; otherwise raises
`InvalidDepartmentException`. -/
def set_department (e : Employee) (new_dept : Int) : Employee × Option HRError :=
  match Department.fromValue? new_dept with
  | some d => ({ e with extra := .department d }, none)
  | none => (e, some .invalidDepartmentException)

/-- The `int(department)` conversion in `Manager.__init__` followed by
the department setter. -/
def set_department_str (e : Employee) (s : List Char) : Employee × Option HRError :=
  match parseInt s with
  | none => (e, some .valueError)
  | some v => set_department e v

/-- Setter `Permanent.hired_date`: the argument is a `datetime` here, so
the `isinstance` check always passes. -/
def set_hired_date (e : Employee) (d : DateTime) : Employee × Option HRError :=
  ({ e with extra := .hired_date d }, none)

/-- Setter `Temp.last_day`: the argument is a `datetime` here, so the
`isinstance` check always passes. -/
def set_last_day (e : Employee) (d : DateTime) : Employee × Option HRError :=
  ({ e with extra := .last_day d }, none)

/-! ### Pay calculation and serialization -/

/-- Dynamic dispatch of `calc_pay`: `Salaried.calc_pay` returns
`yearly / 52.0`, `Hourly.calc_pay` returns `hourly * 40`. -/
def calc_pay (e : Employee) : ℚ :=
  if e.isSalaried then e.pay / 52 else e.pay * 40

/-- The `type(self).__name__` of the concrete class. -/
def typeName (e : Employee) : List Char :=
  match e.extra with
  | .role _ => "Executive".toList
  | .department _ => "Manager".toList
  | .hired_date _ => "Permanent".toList
  | .last_day _ => "Temp".toList

/-- Base method `Employee.__repr__`: `f"{self.name},{self.email},{self.image}"`. -/
def base_repr (e : Employee) : List Char :=
  e.name ++ ',' :: e.email ++ ',' :: e.image

/-- The trailing type-specific field of the concrete `__repr__`s:
`f"{self.role.value}"`, `f"{self.department.value}"`,
`f"{self.hired_date}"` or `f"{self.last_day}"`. -/
def extraRepr (e : Employee) : List Char :=
  match e.extra with
  | .role r => intRepr r.value
  | .department d => intRepr d.value
  | .hired_date d => formatDT d
  | .last_day d => formatDT d

/-- The concrete `__repr__`: the subtype name, then `Employee.__repr__`,
then the pay amount under `:.2f`, then the type-specific field, joined
by commas through the nested f-strings of
`Salaried.__repr__`/`Hourly.__repr__` and the leaf `__repr__`s. -/
def employee_repr (e : Employee) : List Char :=
  typeName e ++ ',' :: base_repr e ++ ',' :: format2dp e.pay ++ ',' :: extraRepr e

/-! ### Constructors

`Employee.__init__` assigns `name` and `email` through their setters
(raising before the id is taken when either is invalid), sets the
placeholder image, then takes the current id and increments the class
counter.  Subclass `__init__`s run it first and then set their own
fields, whose failures happen after the counter bump. -/

/-- Fresh object state before `__init__` runs; every field is assigned
before a constructed object is returned, so these values never escape. -/
def blankEmployee : Employee :=
  { name := [], email := [], image := [], id_number := 0, pay := 0, extra := .role .ceo }

/-- Constructor `Employee.__init__(name, email)` threading the class counter. -/
def Employee.init (c : Nat) (name email : List Char) : Except HRError Employee × Nat :=
  match set_name blankEmployee name with
  | (_, some err) => (.error err, c)
  | (e1, none) =>
    match set_email e1 email with
    | (_, some err) => (.error err, c)
    | (e2, none) =>
      match set_image e2 IMAGE_PLACEHOLDER with
      | (_, some err) => (.error err, c)
      | (e3, none) => (.ok { e3 with id_number := c }, c + 1)

/-- Constructor `Salaried.__init__(name, email, yearly)`. -/
def Salaried.init (c : Nat) (name email yearly : List Char) :
    Except HRError Employee × Nat :=
  match Employee.init c name email with
  | (.error err, c2) => (.error err, c2)
  | (.ok e, c2) =>
    match set_yearly_str e yearly with
    | (_, some err) => (.error err, c2)
    | (e2, none) => (.ok e2, c2)

/-- Constructor `Hourly.__init__(name, email, hourly_pay)`. -/
def Hourly.init (c : Nat) (name email hourly_pay : List Char) :
    Except HRError Employee × Nat :=
  match Employee.init c name email with
  | (.error err, c2) => (.error err, c2)
  | (.ok e, c2) =>
    match set_hourly_str e hourly_pay with
    | (_, some err) => (.error err, c2)
    | (e2, none) => (.ok e2, c2)

/-- Constructor `Executive.__init__(name, email, yearly_amount, role)`. -/
def Executive.init (c : Nat) (name email yearly role : List Char) :
    Except HRError Employee × Nat :=
  match Salaried.init c name email yearly with
  | (.error err, c2) => (.error err, c2)
  | (.ok e, c2) =>
    match set_role_str e role with
    | (_, some err) => (.error err, c2)
    | (e2, none) => (.ok e2, c2)

/-- Constructor `Manager.__init__(name, email, yearly, department)`. -/
def Manager.init (c : Nat) (name email yearly department : List Char) :
    Except HRError Employee × Nat :=
  match Salaried.init c name email yearly with
  | (.error err, c2) => (.error err, c2)
  | (.ok e, c2) =>
    match set_department_str e department with
    | (_, some err) => (.error err, c2)
    | (e2, none) => (.ok e2, c2)

/-- Constructor `Permanent.__init__(name, email, hourly_pay, hired_date)`:
`datetime.strptime` raises `ValueError` on a malformed date string. -/
def Permanent.init (c : Nat) (name email hourly_pay hired : List Char) :
    Except HRError Employee × Nat :=
  match Hourly.init c name email hourly_pay with
  | (.error err, c2) => (.error err, c2)
  | (.ok e, c2) =>
    match parseDatetime hired with
    | none => (.error .valueError, c2)
    | some d =>
      match set_hired_date e d with
      | (_, some err) => (.error err, c2)
      | (e2, none) => (.ok e2, c2)

/-- Constructor `Temp.__init__(name, email, hourly, last_day)`. -/
def Temp.init (c : Nat) (name email hourly last : List Char) :
    Except HRError Employee × Nat :=
  match Hourly.init c name email hourly with
  | (.error err, c2) => (.error err, c2)
  | (.ok e, c2) =>
    match parseDatetime last with
    | none => (.error .valueError, c2)
    | some d =>
      match set_last_day e d with
      | (_, some err) => (.error err, c2)
      | (e2, none) => (.ok e2, c2)

/-! ### Construction sequences (for the id-counter invariant) -/

/-- One constructor call of a concrete class, with the raw (string)
arguments the callers pass. -/
inductive Request
  | executive (name email yearly role : List Char)
  | manager (name email yearly department : List Char)
  | permanent (name email hourly hired : List Char)
  | temp (name email hourly last : List Char)

/-- Dispatch one construction request at the current counter value. -/
def runRequest (c : Nat) : Request → Except HRError Employee × Nat
  | .executive n em y r => Executive.init c n em y r
  | .manager n em y d => Manager.init c n em y d
  | .permanent n em h d => Permanent.init c n em h d
  | .temp n em h d => Temp.init c n em h d

/-- Run a sequence of construction requests, threading the counter. -/
def runAll (c : Nat) : List Request → List (Except HRError Employee) × Nat
  | [] => ([], c)
  | r :: rs =>
    match runRequest c r with
    | (res, c2) =>
      match runAll c2 rs with
      | (ress, c3) => (res :: ress, c3)

/-- The ids of a list of successful construction results (errors, which
the theorems exclude by hypothesis, contribute a dummy 0). -/
def resultIds (l : List (Except HRError Employee)) : List Nat :=
  l.map (fun r => match r with | .ok e => e.id_number | .error _ => 0)

/-! ### The model of `gui.py` record reconstruction -/

/-- Method `MainWindow.create_employee(employee_data)`: dispatch on field 0 and
call the matching constructor on fields 1, 2, 4, 5.  Python returns
`None` when field 0 matches no branch (after which `load_file` would
crash on the `None`); that fall-through is modelled as an error. -/
def create_employee (c : Nat) (row : List (List Char)) :
    Except HRError Employee × Nat :=
  if row.getD 0 [] = "Executive".toList then
    Executive.init c (row.getD 1 []) (row.getD 2 []) (row.getD 4 []) (row.getD 5 [])
  else if row.getD 0 [] = "Manager".toList then
    Manager.init c (row.getD 1 []) (row.getD 2 []) (row.getD 4 []) (row.getD 5 [])
  else if row.getD 0 [] = "Temp".toList then
    Temp.init c (row.getD 1 []) (row.getD 2 []) (row.getD 4 []) (row.getD 5 [])
  else if row.getD 0 [] = "Permanent".toList then
    Permanent.init c (row.getD 1 []) (row.getD 2 []) (row.getD 4 []) (row.getD 5 [])
  else (.error .valueError, c)

/-- One iteration of the `MainWindow.load_file` loop on an already split
row: build the employee, then assign `emp.image = row[3]`. -/
def load_file_row (c : Nat) (row : List (List Char)) :
    Except HRError Employee × Nat :=
  match create_employee c row with
  | (.error err, c2) => (.error err, c2)
  | (.ok e, c2) =>
    match set_image e (row.getD 3 []) with
    | (_, some err) => (.error err, c2)
    | (e2, none) => (.ok e2, c2)

/-! ### Class invariants

Every reachable object satisfies these: the setters establish and
preserve them. -/

/-- The record invariants maintained by the validating setters. -/
def Employee.wf (e : Employee) : Bool :=
  (0 < e.name.length : Bool) &&
  containsSub domainSuffix e.email &&
  (0 < e.image.length : Bool) &&
  (if e.isSalaried then decide ((50000 : ℚ) < e.pay)
   else decide ((15 : ℚ) ≤ e.pay) && decide (e.pay ≤ (99.99 : ℚ))) &&
  (match e.extra with
   | .hired_date d => d.valid
   | .last_day d => d.valid
   | _ => true)

/-! ### The abstract-class structure (ABC machinery)

`Employee` declares `calc_pay` with `@abc.abstractmethod`; `Salaried`
(line 212) and `Hourly` (line 255) both define concrete overrides.
Python's `ABCMeta` forbids instantiating a class exactly when some
abstract method resolves, along its method resolution order, to a
definition still marked abstract. -/

/-- The classes of the module. -/
inductive PyClass
  | employee
  | salaried
  | hourly
  | executive
  | manager
  | permanent
  | temp
deriving DecidableEq, Repr

/-- Method resolution order of each class. -/
def mro : PyClass → List PyClass
  | .employee => [.employee]
  | .salaried => [.salaried, .employee]
  | .hourly => [.hourly, .employee]
  | .executive => [.executive, .salaried, .employee]
  | .manager => [.manager, .salaried, .employee]
  | .permanent => [.permanent, .hourly, .employee]
  | .temp => [.temp, .hourly, .employee]

/-- Which classes define `calc_pay` in their own body (employee.py lines
168, 212, 255). -/
def definesCalcPay : PyClass → Bool
  | .employee => true
  | .salaried => true
  | .hourly => true
  | _ => false

/-- Whether the class's own `calc_pay` definition carries
`@abc.abstractmethod` — only `Employee`'s does. -/
def calcPayAbstractIn : PyClass → Bool
  | .employee => true
  | _ => false

/-- Since `calc_pay` is the only abstract method of the module, so a class can
be instantiated exactly when the first `calc_pay` definition along its
MRO is not the abstract one. -/
def instantiable (c : PyClass) : Bool :=
  match (mro c).find? definesCalcPay with
  | some d => !calcPayAbstractIn d
  | none => true

/-! ## Concrete inputs used by witnesses and counterexamples -/

/-- An executive record whose salary is not a whole number of cents
(60000.123), used to exhibit the failure of the serialization
round-trip. -/
def execBob : Employee :=
  { name := "Bob".toList
    email := "bob@acme-machining.com".toList
    image := "img.png".toList
    id_number := 3
    pay := 60000123 / 1000
    extra := .role .ceo }

/-- An executive record whose salary is a whole number of cents
(60000.50), used to witness the serialization round-trip. -/
def execAnn : Employee :=
  { name := "Ann".toList
    email := "ann@acme-machining.com".toList
    image := "ann.png".toList
    id_number := 5
    pay := 6000050 / 100
    extra := .role .cfo }

/-- A pair of always-valid construction requests for the id-counter
witness. -/
def demoRequests : List Request :=
  [ .executive "Ann".toList "ann@acme-machining.com".toList "60000.00".toList "1".toList
  , .temp "Bob".toList "bob@acme-machining.com".toList "20.50".toList
      "2023-01-01 00:00:00".toList ]

/-- Whether a construction result is a successfully built object. -/
def isOkResult : Except HRError Employee → Bool
  | .ok _ => true
  | .error _ => false

instance : DecidableEq (Except HRError Employee) := fun a b =>
  match a, b with
  | .ok x, .ok y =>
    match decEq x y with
    | isTrue h => isTrue (by rw [h])
    | isFalse h => isFalse (fun hh => h (by injection hh))
  | .error x, .error y =>
    match decEq x y with
    | isTrue h => isTrue (by rw [h])
    | isFalse h => isFalse (fun hh => h (by injection hh))
  | .ok _, .error _ => isFalse (fun hh => by injection hh)
  | .error _, .ok _ => isFalse (fun hh => by injection hh)

/-! ## Lemmas on digit strings and numeral round-trips -/

theorem digitChar_isDigit {d : Nat} (h : d < 10) : (digitChar d).isDigit = true := by
  interval_cases d <;> decide

theorem digitChar_toNat {d : Nat} (h : d < 10) : (digitChar d).toNat - 48 = d := by
  interval_cases d <;> decide

theorem natReprAux_congr {n : Nat} : ∀ {f1 f2 : Nat}, n < f1 → n < f2 →
    natReprAux f1 n = natReprAux f2 n := by
  induction n using Nat.strong_induction_on with
  | _ n ih =>
    intro f1 f2 h1 h2
    cases f1 with
    | zero => omega
    | succ g1 =>
      cases f2 with
      | zero => omega
      | succ g2 =>
        by_cases hn : n < 10
        · simp [natReprAux, hn]
        · have hd : n / 10 < n := Nat.div_lt_self (by omega) (by omega)
          simp only [natReprAux, if_neg hn]
          exact congrArg (fun l => l ++ [digitChar (n % 10)])
            (ih (n / 10) hd (show n / 10 < g1 by omega) (show n / 10 < g2 by omega))

theorem natRepr_lt {n : Nat} (h : n < 10) : natRepr n = [digitChar n] := by
  simp [natRepr, natReprAux, h]

theorem natRepr_ge {n : Nat} (h : 10 ≤ n) :
    natRepr n = natRepr (n / 10) ++ [digitChar (n % 10)] := by
  have hd : n / 10 < n := Nat.div_lt_self (by omega) (by omega)
  have step : natReprAux (n + 1) n =
      if n < 10 then [digitChar n]
      else natReprAux n (n / 10) ++ [digitChar (n % 10)] := rfl
  unfold natRepr
  rw [step, if_neg (Nat.not_lt.mpr h)]
  exact congrArg (fun l => l ++ [digitChar (n % 10)])
    (natReprAux_congr (show n / 10 < n by omega) (show n / 10 < n / 10 + 1 by omega))

theorem natRepr_ne_nil (n : Nat) : natRepr n ≠ [] := by
  by_cases h : n < 10
  · simp [natRepr_lt h]
  · simp [natRepr_ge (Nat.not_lt.mp h)]

theorem mem_natRepr_isDigit {n : Nat} {c : Char} (h : c ∈ natRepr n) :
    c.isDigit = true := by
  induction n using Nat.strong_induction_on with
  | _ n ih =>
    by_cases hlt : n < 10
    · rw [natRepr_lt hlt] at h
      rcases List.mem_singleton.mp h with rfl
      exact digitChar_isDigit hlt
    · rw [natRepr_ge (Nat.not_lt.mp hlt)] at h
      rcases List.mem_append.mp h with h1 | h1
      · exact ih (n / 10) (Nat.div_lt_self (by omega) (by omega)) h1
      · rcases List.mem_singleton.mp h1 with rfl
        exact digitChar_isDigit (Nat.mod_lt n (by omega))

theorem parseDigitsAux_append (acc : Nat) (l1 l2 : List Char) :
    parseDigitsAux acc (l1 ++ l2) =
      (parseDigitsAux acc l1).bind (fun a => parseDigitsAux a l2) := by
  induction l1 generalizing acc with
  | nil => simp [parseDigitsAux]
  | cons c cs ih =>
    simp only [List.cons_append, parseDigitsAux]
    by_cases hd : c.isDigit
    · simp [hd, ih]
    · simp [hd]

theorem parseDigitsAux_natRepr (n : Nat) :
    ∀ acc, parseDigitsAux acc (natRepr n) =
      some (acc * 10 ^ (natRepr n).length + n) := by
  induction n using Nat.strong_induction_on with
  | _ n ih =>
    intro acc
    by_cases hlt : n < 10
    · rw [natRepr_lt hlt]
      simp [parseDigitsAux, digitChar_isDigit hlt, digitChar_toNat hlt]
      ring
    · have h10 : 10 ≤ n := Nat.not_lt.mp hlt
      rw [natRepr_ge h10]
      rw [parseDigitsAux_append]
      rw [ih (n / 10) (Nat.div_lt_self (by omega) (by omega)) acc]
      have hm : n % 10 < 10 := Nat.mod_lt n (by omega)
      simp [parseDigitsAux, digitChar_isDigit hm, digitChar_toNat hm]
      have := Nat.div_add_mod n 10
      ring_nf
      omega

theorem parseDigits_natRepr (n : Nat) : parseDigits (natRepr n) = some n := by
  have h := parseDigitsAux_natRepr n 0
  have hne : (natRepr n).isEmpty = false := by
    cases hh : natRepr n with
    | nil => exact absurd hh (natRepr_ne_nil n)
    | cons a l => rfl
  simp [parseDigits, hne, h]

theorem parseDigitsAux_zero_replicate (k : Nat) (l : List Char) :
    parseDigitsAux 0 (List.replicate k '0' ++ l) = parseDigitsAux 0 l := by
  induction k with
  | zero => simp
  | succ k ih => simpa [List.replicate_succ, parseDigitsAux] using ih

theorem padTo_ne_nil (w n : Nat) : padTo w n ≠ [] := by
  unfold padTo
  intro h
  rcases List.append_eq_nil.mp h with ⟨_, h2⟩
  exact natRepr_ne_nil n h2

theorem parseDigits_padTo (w n : Nat) : parseDigits (padTo w n) = some n := by
  have hne : (padTo w n).isEmpty = false := by
    cases hh : padTo w n with
    | nil => exact absurd hh (padTo_ne_nil w n)
    | cons a l => rfl
  have h0 := parseDigitsAux_zero_replicate (w - (natRepr n).length) (natRepr n)
  have h1 := parseDigitsAux_natRepr n 0
  simp only [parseDigits, hne, Bool.false_eq_true, if_false, padTo, h0, h1]
  simp
  exact fun _ => natRepr_ne_nil n

theorem mem_padTo_isDigit {w n : Nat} {c : Char} (h : c ∈ padTo w n) :
    c.isDigit = true := by
  unfold padTo at h
  rcases List.mem_append.mp h with h1 | h1
  · rcases List.eq_of_mem_replicate h1 with rfl
    decide
  · exact mem_natRepr_isDigit h1

theorem isDigit_ne {c x : Char} (h : c.isDigit = true) (hx : x.isDigit = false) :
    c ≠ x := by
  intro hcx
  rw [hcx, hx] at h
  cases h

/-! ## Lemmas on takeWhile/dropWhile field extraction -/

theorem takeWhile_append_sep {p : Char → Bool} {l1 l2 : List Char} {x : Char}
    (h : ∀ c ∈ l1, p c = true) (hx : p x = false) :
    (l1 ++ x :: l2).takeWhile p = l1 := by
  induction l1 with
  | nil => simp [List.takeWhile, hx]
  | cons c cs ih =>
    have hc : p c = true := h c (by simp)
    simp only [List.cons_append, List.takeWhile, hc, List.append_eq]
    rw [ih (fun d hd => h d (by simp [hd]))]

theorem dropWhile_append_sep {p : Char → Bool} {l1 l2 : List Char} {x : Char}
    (h : ∀ c ∈ l1, p c = true) (hx : p x = false) :
    (l1 ++ x :: l2).dropWhile p = x :: l2 := by
  induction l1 with
  | nil => simp [List.dropWhile, hx]
  | cons c cs ih =>
    have hc : p c = true := h c (by simp)
    simp only [List.cons_append, List.dropWhile, hc, List.append_eq]
    exact ih (fun d hd => h d (by simp [hd]))

/-! ## Length of padded numerals -/

theorem natRepr_length_lt_ten {n : Nat} (h : n < 10) : (natRepr n).length = 1 := by
  rw [natRepr_lt h]
  rfl

theorem natRepr_length_lt_hundred {n : Nat} (h : n < 100) :
    (natRepr n).length ≤ 2 := by
  by_cases h10 : n < 10
  · rw [natRepr_length_lt_ten h10]
    omega
  · rw [natRepr_ge (Nat.not_lt.mp h10)]
    have : n / 10 < 10 := by omega
    simp [natRepr_length_lt_ten this]

theorem length_padTo {w n : Nat} (h : (natRepr n).length ≤ w) :
    (padTo w n).length = w := by
  simp [padTo]
  omega

/-! ## Two-decimal formatting round-trip -/

theorem toCents_div_hundred (c : Nat) : toCents ((c : ℚ) / 100) = c := by
  unfold toCents
  have h1 : (c : ℚ) / 100 * 100 + 1 / 2 = (c : ℚ) + 1 / 2 := by
    rw [div_mul_cancel₀]
    norm_num
  rw [h1]
  have h2 : ⌊(c : ℚ) + 1 / 2⌋ = (c : Int) := by
    rw [Int.floor_eq_iff]
    constructor
    · push_cast
      linarith
    · push_cast
      linarith
  rw [h2]
  exact Int.toNat_natCast c

theorem parseDecimal_format2dp (c : Nat) :
    parseDecimal (format2dp ((c : ℚ) / 100)) = some ((c : ℚ) / 100) := by
  have hdot : ('.' : Char).isDigit = false := by decide
  have hmod : c % 100 < 100 := Nat.mod_lt c (by omega)
  have hself : ∀ d ∈ natRepr (c / 100), (decide (d ≠ '.')) = true := by
    intro d hd
    simpa using isDigit_ne (mem_natRepr_isDigit hd) hdot
  unfold format2dp
  rw [toCents_div_hundred]
  unfold parseDecimal
  rw [takeWhile_append_sep hself (by simp), dropWhile_append_sep hself (by simp)]
  simp only [parseDigits_natRepr, parseDigits_padTo]
  have hlen : (padTo 2 (c % 100)).length = 2 :=
    length_padTo (natRepr_length_lt_hundred hmod)
  rw [hlen]
  congr 1
  have hdm := Nat.div_add_mod c 100
  have : ((10 : ℚ) ^ 2) = 100 := by norm_num
  rw [this]
  field_simp
  norm_cast
  omega

/-! ## Splitting a comma-joined record -/

theorem splitOnComma_not_mem {l : List Char} (h : ',' ∉ l) :
    splitOnComma l = [l] := by
  induction l with
  | nil => rfl
  | cons c cs ih =>
    have hc : ¬ c = ',' := fun hc => h (by simp [hc])
    have hcs : ',' ∉ cs := fun hm => h (by simp [hm])
    simp only [splitOnComma, if_neg hc, ih hcs]

theorem splitOnComma_append {l1 l2 : List Char} (h : ',' ∉ l1) :
    splitOnComma (l1 ++ ',' :: l2) = l1 :: splitOnComma l2 := by
  induction l1 with
  | nil => simp [splitOnComma]
  | cons c cs ih =>
    have hc : ¬ c = ',' := fun hc => h (by simp [hc])
    have hcs : ',' ∉ cs := fun hm => h (by simp [hm])
    simp only [List.cons_append, splitOnComma, if_neg hc, List.append_eq, ih hcs]

theorem splitOnComma_joinComma {fs : List (List Char)} (hne : fs ≠ [])
    (h : ∀ f ∈ fs, ',' ∉ f) : splitOnComma (joinComma fs) = fs := by
  induction fs with
  | nil => cases hne rfl
  | cons f rest ih =>
    cases rest with
    | nil => simpa [joinComma] using splitOnComma_not_mem (h f (by simp))
    | cons g gs =>
      have hjoin : joinComma (f :: g :: gs) = f ++ ',' :: joinComma (g :: gs) := rfl
      rw [hjoin, splitOnComma_append (h f (by simp))]
      rw [ih (by simp) (fun x hx => h x (by simp [hx]))]

/-! ## Datetime round-trip -/

theorem padTo_all_ne {w n : Nat} {x : Char} (hx : x.isDigit = false) :
    ∀ c ∈ padTo w n, (decide (c ≠ x)) = true := by
  intro c hc
  simpa using isDigit_ne (mem_padTo_isDigit hc) hx

theorem splitField_append {sep : Char} {l1 l2 : List Char}
    (h : ∀ c ∈ l1, (decide (c ≠ sep)) = true) :
    splitField sep (l1 ++ sep :: l2) = some (l1, l2) := by
  unfold splitField
  rw [dropWhile_append_sep h (by simp), takeWhile_append_sep h (by simp)]

theorem parseDatetime_formatDT {d : DateTime} (h : d.valid = true) :
    parseDatetime (formatDT d) = some d := by
  have hdash : ('-' : Char).isDigit = false := by decide
  have hsp : (' ' : Char).isDigit = false := by decide
  have hcol : (':' : Char).isDigit = false := by decide
  have hfmt : formatDT d =
      padTo 4 d.year ++ '-' :: (padTo 2 d.month ++ '-' :: (padTo 2 d.day ++
        ' ' :: (padTo 2 d.hour ++ ':' :: (padTo 2 d.minute ++ ':' :: padTo 2 d.second)))) := by
    simp [formatDT]
  rw [hfmt]
  simp only [parseDatetime, splitField_append (padTo_all_ne hdash),
    splitField_append (padTo_all_ne hsp), splitField_append (padTo_all_ne hcol),
    Option.some_bind, parseDigits_padTo]
  simp [h]

/-! ## Comma-freeness of the serialized fields -/

theorem comma_not_mem_natRepr (n : Nat) : ',' ∉ natRepr n := fun hm =>
  absurd (mem_natRepr_isDigit hm) (by decide)

theorem comma_not_mem_padTo (w n : Nat) : ',' ∉ padTo w n := fun hm =>
  absurd (mem_padTo_isDigit hm) (by decide)

theorem comma_not_mem_format2dp (q : ℚ) : ',' ∉ format2dp q := by
  intro hm
  simp only [format2dp, List.mem_append, List.mem_cons] at hm
  rcases hm with hm | hm | hm
  · exact comma_not_mem_natRepr _ hm
  · cases hm
  · exact comma_not_mem_padTo _ _ hm

theorem comma_not_mem_intRepr (i : Int) : ',' ∉ intRepr i := by
  intro hm
  unfold intRepr at hm
  by_cases hi : i < 0
  · rw [if_pos hi] at hm
    rcases List.mem_cons.mp hm with hm | hm
    · cases hm
    · exact comma_not_mem_natRepr _ hm
  · rw [if_neg hi] at hm
    exact comma_not_mem_natRepr _ hm

theorem comma_mem_padTo (w n : Nat) : (',' ∈ padTo w n) = False :=
  eq_false (comma_not_mem_padTo w n)

theorem comma_not_mem_formatDT (d : DateTime) : ',' ∉ formatDT d := by
  simp [formatDT, comma_mem_padTo, List.mem_append, List.mem_cons]

theorem comma_not_mem_typeName (e : Employee) : ',' ∉ typeName e := by
  obtain ⟨n, m, i, idn, p, x⟩ := e
  cases x <;> · simp only [typeName]; decide

theorem comma_not_mem_extraRepr (e : Employee) : ',' ∉ extraRepr e := by
  unfold extraRepr
  cases e.extra with
  | role r => exact comma_not_mem_intRepr _
  | department d => exact comma_not_mem_intRepr _
  | hired_date d => exact comma_not_mem_formatDT _
  | last_day d => exact comma_not_mem_formatDT _

/-! ## Setter characterizations

Each setter either raises and leaves the whole record untouched, or
assigns exactly its own field. -/

theorem set_name_eq (e : Employee) (v : List Char) :
    set_name e v =
      if 0 < v.length then ({ e with name := v }, none)
      else (e, some .valueError) := by
  unfold set_name
  rcases Nat.eq_zero_or_pos v.length with h | h
  · simp [h]
  · simp [h, Nat.not_le.mpr h, Nat.pos_iff_ne_zero.mp h]

theorem set_email_eq (e : Employee) (v : List Char) :
    set_email e v =
      if v ≠ [] ∧ containsSub domainSuffix v = true then ({ e with email := v }, none)
      else (e, some .valueError) := by
  unfold set_email
  rcases Nat.eq_zero_or_pos v.length with h | h
  · have hv : v = [] := List.length_eq_zero.mp h
    simp [hv]
  · have hv : v ≠ [] := by
      intro hnil
      rw [hnil] at h
      exact absurd h (by simp)
    by_cases hc : containsSub domainSuffix v
    · simp [Nat.not_le.mpr h, hc, hv]
    · simp [Nat.not_le.mpr h, hc, hv]

theorem set_image_eq (e : Employee) (v : List Char) :
    set_image e v =
      if v ≠ [] then ({ e with image := v }, none)
      else (e, some .valueError) := by
  unfold set_image
  rcases Nat.eq_zero_or_pos v.length with h | h
  · have hv : v = [] := List.length_eq_zero.mp h
    simp [hv]
  · have hv : v ≠ [] := by
      intro hnil
      rw [hnil] at h
      exact absurd h (by simp)
    simp [Nat.pos_iff_ne_zero.mp h, hv]

theorem set_yearly_eq (e : Employee) (x : ℚ) :
    set_yearly e x =
      if 50000 < x then ({ e with pay := x }, none)
      else (e, some .valueError) := by
  unfold set_yearly
  rcases le_or_lt x 50000 with h | h
  · simp [h, not_lt.mpr h]
  · simp [h, not_le.mpr h]

theorem set_hourly_eq (e : Employee) (x : ℚ) :
    set_hourly e x =
      if 15 ≤ x ∧ x ≤ 99.99 then ({ e with pay := x }, none)
      else (e, some .valueError) := by
  unfold set_hourly
  by_cases h1 : 15 ≤ x
  · by_cases h2 : x ≤ 99.99
    · simp [h1, h2]
    · simp [h1, h2]
  · simp [h1]

theorem roleFromValue_eq_none {v : Int} (h1 : v ≠ 1) (h2 : v ≠ 2) (h3 : v ≠ 3) :
    Role.fromValue? v = none := by
  unfold Role.fromValue?
  split <;> simp_all

theorem deptFromValue_eq_none {v : Int} (h1 : v ≠ 1) (h2 : v ≠ 2)
    (h3 : v ≠ 3) (h4 : v ≠ 4) (h5 : v ≠ 5) :
    Department.fromValue? v = none := by
  unfold Department.fromValue?
  split <;> simp_all

theorem set_role_eq (e : Employee) (v : Int) :
    set_role e v =
      if v = 1 then ({ e with extra := .role .ceo }, none)
      else if v = 2 then ({ e with extra := .role .cfo }, none)
      else if v = 3 then ({ e with extra := .role .cio }, none)
      else (e, some .invalidRoleException) := by
  by_cases h1 : v = 1
  · subst h1
    simp [set_role, Role.fromValue?]
  · by_cases h2 : v = 2
    · subst h2
      simp [set_role, Role.fromValue?]
    · by_cases h3 : v = 3
      · subst h3
        simp [set_role, Role.fromValue?]
      · simp [set_role, roleFromValue_eq_none h1 h2 h3, h1, h2, h3]

theorem set_department_eq (e : Employee) (v : Int) :
    set_department e v =
      if v = 1 then ({ e with extra := .department .accounting }, none)
      else if v = 2 then ({ e with extra := .department .finance }, none)
      else if v = 3 then ({ e with extra := .department .hr }, none)
      else if v = 4 then ({ e with extra := .department .r_and_d }, none)
      else if v = 5 then ({ e with extra := .department .machining }, none)
      else (e, some .invalidDepartmentException) := by
  by_cases h1 : v = 1
  · subst h1
    simp [set_department, Department.fromValue?]
  · by_cases h2 : v = 2
    · subst h2
      simp [set_department, Department.fromValue?]
    · by_cases h3 : v = 3
      · subst h3
        simp [set_department, Department.fromValue?]
      · by_cases h4 : v = 4
        · subst h4
          simp [set_department, Department.fromValue?]
        · by_cases h5 : v = 5
          · subst h5
            simp [set_department, Department.fromValue?]
          · simp [set_department, deptFromValue_eq_none h1 h2 h3 h4 h5,
              h1, h2, h3, h4, h5]

/-! ## The serialized record as a field list -/

theorem employee_repr_fields (e : Employee) :
    employee_repr e =
      joinComma [typeName e, e.name, e.email, e.image, format2dp e.pay, extraRepr e] := by
  simp [employee_repr, base_repr, joinComma, List.append_assoc]

theorem splitOnComma_employee_repr (e : Employee)
    (hn : ',' ∉ e.name) (hm : ',' ∉ e.email) (hi : ',' ∉ e.image) :
    splitOnComma (employee_repr e) =
      [typeName e, e.name, e.email, e.image, format2dp e.pay, extraRepr e] := by
  rw [employee_repr_fields]
  apply splitOnComma_joinComma (by simp)
  intro f hf
  simp only [List.mem_cons, List.not_mem_nil, or_false] at hf
  rcases hf with rfl | rfl | rfl | rfl | rfl | rfl
  · exact comma_not_mem_typeName e
  · exact hn
  · exact hm
  · exact hi
  · exact comma_not_mem_format2dp _
  · exact comma_not_mem_extraRepr e

/-! ## Constructor evaluation on valid input -/

theorem containsSub_ne_nil {needle hay : List Char} (hne : needle.isEmpty = false)
    (h : containsSub needle hay = true) : hay ≠ [] := by
  intro hh
  subst hh
  simp [containsSub] at h
  rw [h] at hne
  cases hne

theorem Employee.init_ok {c : Nat} {name email : List Char}
    (hn : name ≠ []) (he : containsSub domainSuffix email = true) :
    Employee.init c name email =
      (.ok { name := name, email := email, image := IMAGE_PLACEHOLDER,
             id_number := c, pay := 0, extra := .role .ceo }, c + 1) := by
  have hnl : ¬ name.length ≤ 0 := by
    cases name with
    | nil => exact absurd rfl hn
    | cons a l => simp
  have hel : email ≠ [] := containsSub_ne_nil (by decide) he
  have hell : ¬ email.length ≤ 0 := by
    cases email with
    | nil => exact absurd rfl hel
    | cons a l => simp
  have himg : ¬ (IMAGE_PLACEHOLDER.length = 0) := by decide
  unfold Employee.init set_name set_email set_image blankEmployee
  simp [hnl, hell, he, himg]

theorem roleFromValue_value (r : Role) : Role.fromValue? r.value = some r := by
  cases r <;> rfl

theorem deptFromValue_value (d : Department) :
    Department.fromValue? d.value = some d := by
  cases d <;> rfl

theorem parseInt_intRepr_role (r : Role) : parseInt (intRepr r.value) = some r.value := by
  cases r <;> decide

theorem parseInt_intRepr_dept (d : Department) :
    parseInt (intRepr d.value) = some d.value := by
  cases d <;> decide

theorem salaried_init_format {c : Nat} {name email : List Char} {cents : Nat}
    (hn : name ≠ []) (he : containsSub domainSuffix email = true)
    (hpay : 50000 < (cents : ℚ) / 100) :
    Salaried.init c name email (format2dp ((cents : ℚ) / 100)) =
      (.ok { name := name, email := email, image := IMAGE_PLACEHOLDER,
             id_number := c, pay := (cents : ℚ) / 100, extra := .role .ceo }, c + 1) := by
  simp [Salaried.init, Employee.init_ok hn he, set_yearly_str,
    parseDecimal_format2dp, set_yearly_eq, hpay]

theorem hourly_init_format {c : Nat} {name email : List Char} {cents : Nat}
    (hn : name ≠ []) (he : containsSub domainSuffix email = true)
    (h15 : 15 ≤ (cents : ℚ) / 100) (h99 : (cents : ℚ) / 100 ≤ 99.99) :
    Hourly.init c name email (format2dp ((cents : ℚ) / 100)) =
      (.ok { name := name, email := email, image := IMAGE_PLACEHOLDER,
             id_number := c, pay := (cents : ℚ) / 100, extra := .role .ceo }, c + 1) := by
  simp [Hourly.init, Employee.init_ok hn he, set_hourly_str,
    parseDecimal_format2dp, set_hourly_eq, h15, h99]

theorem executive_init_format {c : Nat} {name email : List Char} {cents : Nat}
    (hn : name ≠ []) (he : containsSub domainSuffix email = true)
    (hpay : 50000 < (cents : ℚ) / 100) (r : Role) :
    Executive.init c name email (format2dp ((cents : ℚ) / 100)) (intRepr r.value) =
      (.ok { name := name, email := email, image := IMAGE_PLACEHOLDER,
             id_number := c, pay := (cents : ℚ) / 100, extra := .role r }, c + 1) := by
  simp [Executive.init, salaried_init_format hn he hpay, set_role_str,
    parseInt_intRepr_role, set_role, roleFromValue_value]

theorem manager_init_format {c : Nat} {name email : List Char} {cents : Nat}
    (hn : name ≠ []) (he : containsSub domainSuffix email = true)
    (hpay : 50000 < (cents : ℚ) / 100) (d : Department) :
    Manager.init c name email (format2dp ((cents : ℚ) / 100)) (intRepr d.value) =
      (.ok { name := name, email := email, image := IMAGE_PLACEHOLDER,
             id_number := c, pay := (cents : ℚ) / 100, extra := .department d }, c + 1) := by
  simp [Manager.init, salaried_init_format hn he hpay, set_department_str,
    parseInt_intRepr_dept, set_department, deptFromValue_value]

theorem permanent_init_format {c : Nat} {name email : List Char} {cents : Nat}
    (hn : name ≠ []) (he : containsSub domainSuffix email = true)
    (h15 : 15 ≤ (cents : ℚ) / 100) (h99 : (cents : ℚ) / 100 ≤ 99.99)
    {d : DateTime} (hd : d.valid = true) :
    Permanent.init c name email (format2dp ((cents : ℚ) / 100)) (formatDT d) =
      (.ok { name := name, email := email, image := IMAGE_PLACEHOLDER,
             id_number := c, pay := (cents : ℚ) / 100, extra := .hired_date d }, c + 1) := by
  simp [Permanent.init, hourly_init_format hn he h15 h99,
    parseDatetime_formatDT hd, set_hired_date]

theorem temp_init_format {c : Nat} {name email : List Char} {cents : Nat}
    (hn : name ≠ []) (he : containsSub domainSuffix email = true)
    (h15 : 15 ≤ (cents : ℚ) / 100) (h99 : (cents : ℚ) / 100 ≤ 99.99)
    {d : DateTime} (hd : d.valid = true) :
    Temp.init c name email (format2dp ((cents : ℚ) / 100)) (formatDT d) =
      (.ok { name := name, email := email, image := IMAGE_PLACEHOLDER,
             id_number := c, pay := (cents : ℚ) / 100, extra := .last_day d }, c + 1) := by
  simp [Temp.init, hourly_init_format hn he h15 h99,
    parseDatetime_formatDT hd, set_last_day]

theorem wf_name_ne_nil {e : Employee} (hwf : e.wf = true) : e.name ≠ [] := by
  intro hh
  simp only [Employee.wf, Bool.and_eq_true, decide_eq_true_eq] at hwf
  rw [hh] at hwf
  simp at hwf

theorem wf_email_contains {e : Employee} (hwf : e.wf = true) :
    containsSub domainSuffix e.email = true := by
  simp only [Employee.wf, Bool.and_eq_true, decide_eq_true_eq] at hwf
  exact hwf.1.1.1.2

theorem wf_image_ne_nil {e : Employee} (hwf : e.wf = true) : e.image ≠ [] := by
  intro hh
  simp only [Employee.wf, Bool.and_eq_true, decide_eq_true_eq] at hwf
  rw [hh] at hwf
  simp at hwf

/-- Reconstructing a saved line: the employee built by
`create_employee` from the comma-split `__repr__` line, with the image
reassigned from field 3, equals the original up to the freshly assigned
id, provided the pay amount is a whole number of cents. -/
theorem load_row_of_repr (e : Employee) (fresh cents : Nat)
    (hwf : e.wf = true) (hn : ',' ∉ e.name) (hm : ',' ∉ e.email) (hi : ',' ∉ e.image)
    (hpay : e.pay = (cents : ℚ) / 100) :
    load_file_row fresh (splitOnComma (employee_repr e)) =
      (.ok { e with id_number := fresh }, fresh + 1) := by
  rw [splitOnComma_employee_repr e hn hm hi]
  have hname := wf_name_ne_nil hwf
  have hemail := wf_email_contains hwf
  have himg := wf_image_ne_nil hwf
  rcases hex : e.extra with r | d | dt | dt
  · -- Executive
    have hpb : 50000 < e.pay := by
      simp only [Employee.wf, Employee.isSalaried, hex, Bool.and_eq_true,
        decide_eq_true_eq] at hwf
      simpa using hwf.1.2
    rw [hpay] at hpb
    simp [load_file_row, create_employee, typeName, extraRepr, hex, hpay,
      executive_init_format hname hemail hpb r, set_image_eq, himg]
  · -- Manager
    have hpb : 50000 < e.pay := by
      simp only [Employee.wf, Employee.isSalaried, hex, Bool.and_eq_true,
        decide_eq_true_eq] at hwf
      simpa using hwf.1.2
    rw [hpay] at hpb
    have hne1 : "Manager".toList ≠ "Executive".toList := by decide
    simp [load_file_row, create_employee, typeName, extraRepr, hex, hpay, hne1,
      manager_init_format hname hemail hpb d, set_image_eq, himg]
  · -- Permanent
    have hpb : 15 ≤ e.pay ∧ e.pay ≤ 99.99 := by
      simp only [Employee.wf, Employee.isSalaried, hex, Bool.and_eq_true,
        decide_eq_true_eq] at hwf
      simpa using hwf.1.2
    have hdt : dt.valid = true := by
      simp only [Employee.wf, hex, Bool.and_eq_true, decide_eq_true_eq] at hwf
      exact hwf.2
    rw [hpay] at hpb
    have hne1 : "Permanent".toList ≠ "Executive".toList := by decide
    have hne2 : "Permanent".toList ≠ "Manager".toList := by decide
    have hne3 : "Permanent".toList ≠ "Temp".toList := by decide
    simp [load_file_row, create_employee, typeName, extraRepr, hex, hpay,
      hne1, hne2, hne3,
      permanent_init_format hname hemail hpb.1 hpb.2 hdt, set_image_eq, himg]
  · -- Temp
    have hpb : 15 ≤ e.pay ∧ e.pay ≤ 99.99 := by
      simp only [Employee.wf, Employee.isSalaried, hex, Bool.and_eq_true,
        decide_eq_true_eq] at hwf
      simpa using hwf.1.2
    have hdt : dt.valid = true := by
      simp only [Employee.wf, hex, Bool.and_eq_true, decide_eq_true_eq] at hwf
      exact hwf.2
    rw [hpay] at hpb
    have hne1 : "Temp".toList ≠ "Executive".toList := by decide
    have hne2 : "Temp".toList ≠ "Manager".toList := by decide
    simp [load_file_row, create_employee, typeName, extraRepr, hex, hpay,
      hne1, hne2,
      temp_init_format hname hemail hpb.1 hpb.2 hdt, set_image_eq, himg]

/-! ## Setters never touch the id -/

theorem set_name_fst_id (e : Employee) (v : List Char) :
    ((set_name e v).1).id_number = e.id_number := by
  rw [set_name_eq]
  split <;> rfl

theorem set_email_fst_id (e : Employee) (v : List Char) :
    ((set_email e v).1).id_number = e.id_number := by
  rw [set_email_eq]
  split <;> rfl

theorem set_image_fst_id (e : Employee) (v : List Char) :
    ((set_image e v).1).id_number = e.id_number := by
  rw [set_image_eq]
  split <;> rfl

theorem set_yearly_fst_id (e : Employee) (x : ℚ) :
    ((set_yearly e x).1).id_number = e.id_number := by
  rw [set_yearly_eq]
  split <;> rfl

theorem set_hourly_fst_id (e : Employee) (x : ℚ) :
    ((set_hourly e x).1).id_number = e.id_number := by
  rw [set_hourly_eq]
  split <;> rfl

theorem set_role_fst_id (e : Employee) (v : Int) :
    ((set_role e v).1).id_number = e.id_number := by
  rw [set_role_eq]
  split <;> first | rfl | (split <;> first | rfl | (split <;> rfl))

theorem set_department_fst_id (e : Employee) (v : Int) :
    ((set_department e v).1).id_number = e.id_number := by
  unfold set_department
  split <;> rfl

theorem set_hired_date_fst_id (e : Employee) (d : DateTime) :
    ((set_hired_date e d).1).id_number = e.id_number := rfl

theorem set_last_day_fst_id (e : Employee) (d : DateTime) :
    ((set_last_day e d).1).id_number = e.id_number := rfl

theorem set_yearly_str_fst_id (e : Employee) (s : List Char) :
    ((set_yearly_str e s).1).id_number = e.id_number := by
  unfold set_yearly_str
  split
  · rfl
  · exact set_yearly_fst_id e _

theorem set_hourly_str_fst_id (e : Employee) (s : List Char) :
    ((set_hourly_str e s).1).id_number = e.id_number := by
  unfold set_hourly_str
  split
  · rfl
  · exact set_hourly_fst_id e _

theorem set_role_str_fst_id (e : Employee) (s : List Char) :
    ((set_role_str e s).1).id_number = e.id_number := by
  unfold set_role_str
  split
  · rfl
  · exact set_role_fst_id e _

theorem set_department_str_fst_id (e : Employee) (s : List Char) :
    ((set_department_str e s).1).id_number = e.id_number := by
  unfold set_department_str
  split
  · rfl
  · exact set_department_fst_id e _

/-! ## Every successful construction takes the current id and bumps the
counter by one -/

theorem employee_init_ok_inv {c c2 : Nat} {name email : List Char} {e : Employee}
    (h : Employee.init c name email = (.ok e, c2)) :
    e.id_number = c ∧ c2 = c + 1 := by
  unfold Employee.init at h
  split at h
  · exact absurd h (by simp)
  · split at h
    · exact absurd h (by simp)
    · split at h
      · exact absurd h (by simp)
      · simp only [Prod.mk.injEq, Except.ok.injEq] at h
        obtain ⟨h1, h2⟩ := h
        refine ⟨?_, by omega⟩
        rw [← h1]

theorem salaried_init_ok_inv {c c2 : Nat} {name email yearly : List Char}
    {e : Employee} (h : Salaried.init c name email yearly = (.ok e, c2)) :
    e.id_number = c ∧ c2 = c + 1 := by
  unfold Salaried.init at h
  split at h
  · exact absurd h (by simp)
  · rename_i e1 c1 heq
    split at h
    · exact absurd h (by simp)
    · rename_i e2 heq2
      simp only [Prod.mk.injEq, Except.ok.injEq] at h
      obtain ⟨h1, h2⟩ := h
      obtain ⟨hid, hc⟩ := employee_init_ok_inv heq
      have : e2.id_number = e1.id_number := by
        rw [show e2 = (set_yearly_str e1 yearly).1 from by rw [heq2]]
        exact set_yearly_str_fst_id e1 yearly
      subst h1
      omega

theorem hourly_init_ok_inv {c c2 : Nat} {name email hourly : List Char}
    {e : Employee} (h : Hourly.init c name email hourly = (.ok e, c2)) :
    e.id_number = c ∧ c2 = c + 1 := by
  unfold Hourly.init at h
  split at h
  · exact absurd h (by simp)
  · rename_i e1 c1 heq
    split at h
    · exact absurd h (by simp)
    · rename_i e2 heq2
      simp only [Prod.mk.injEq, Except.ok.injEq] at h
      obtain ⟨h1, h2⟩ := h
      obtain ⟨hid, hc⟩ := employee_init_ok_inv heq
      have : e2.id_number = e1.id_number := by
        rw [show e2 = (set_hourly_str e1 hourly).1 from by rw [heq2]]
        exact set_hourly_str_fst_id e1 hourly
      subst h1
      omega

theorem executive_init_ok_inv {c c2 : Nat} {name email yearly role : List Char}
    {e : Employee} (h : Executive.init c name email yearly role = (.ok e, c2)) :
    e.id_number = c ∧ c2 = c + 1 := by
  unfold Executive.init at h
  split at h
  · exact absurd h (by simp)
  · rename_i e1 c1 heq
    split at h
    · exact absurd h (by simp)
    · rename_i e2 heq2
      simp only [Prod.mk.injEq, Except.ok.injEq] at h
      obtain ⟨h1, h2⟩ := h
      obtain ⟨hid, hc⟩ := salaried_init_ok_inv heq
      have : e2.id_number = e1.id_number := by
        rw [show e2 = (set_role_str e1 role).1 from by rw [heq2]]
        exact set_role_str_fst_id e1 role
      subst h1
      omega

theorem manager_init_ok_inv {c c2 : Nat} {name email yearly department : List Char}
    {e : Employee} (h : Manager.init c name email yearly department = (.ok e, c2)) :
    e.id_number = c ∧ c2 = c + 1 := by
  unfold Manager.init at h
  split at h
  · exact absurd h (by simp)
  · rename_i e1 c1 heq
    split at h
    · exact absurd h (by simp)
    · rename_i e2 heq2
      simp only [Prod.mk.injEq, Except.ok.injEq] at h
      obtain ⟨h1, h2⟩ := h
      obtain ⟨hid, hc⟩ := salaried_init_ok_inv heq
      have : e2.id_number = e1.id_number := by
        rw [show e2 = (set_department_str e1 department).1 from by rw [heq2]]
        exact set_department_str_fst_id e1 department
      subst h1
      omega

theorem permanent_init_ok_inv {c c2 : Nat} {name email hourly hired : List Char}
    {e : Employee} (h : Permanent.init c name email hourly hired = (.ok e, c2)) :
    e.id_number = c ∧ c2 = c + 1 := by
  unfold Permanent.init at h
  split at h
  · exact absurd h (by simp)
  · rename_i e1 c1 heq
    split at h
    · exact absurd h (by simp)
    · rename_i d heqd
      split at h
      · exact absurd h (by simp)
      · rename_i e2 heq2
        simp only [Prod.mk.injEq, Except.ok.injEq] at h
        obtain ⟨h1, h2⟩ := h
        obtain ⟨hid, hc⟩ := hourly_init_ok_inv heq
        have : e2.id_number = e1.id_number := by
          rw [show e2 = (set_hired_date e1 d).1 from by rw [heq2]]
          exact set_hired_date_fst_id e1 d
        subst h1
        omega

theorem temp_init_ok_inv {c c2 : Nat} {name email hourly last : List Char}
    {e : Employee} (h : Temp.init c name email hourly last = (.ok e, c2)) :
    e.id_number = c ∧ c2 = c + 1 := by
  unfold Temp.init at h
  split at h
  · exact absurd h (by simp)
  · rename_i e1 c1 heq
    split at h
    · exact absurd h (by simp)
    · rename_i d heqd
      split at h
      · exact absurd h (by simp)
      · rename_i e2 heq2
        simp only [Prod.mk.injEq, Except.ok.injEq] at h
        obtain ⟨h1, h2⟩ := h
        obtain ⟨hid, hc⟩ := hourly_init_ok_inv heq
        have : e2.id_number = e1.id_number := by
          rw [show e2 = (set_last_day e1 d).1 from by rw [heq2]]
          exact set_last_day_fst_id e1 d
        subst h1
        omega

theorem runRequest_ok_inv {c c2 : Nat} {r : Request} {e : Employee}
    (h : runRequest c r = (.ok e, c2)) :
    e.id_number = c ∧ c2 = c + 1 := by
  cases r with
  | executive n em y ro => exact executive_init_ok_inv h
  | manager n em y d => exact manager_init_ok_inv h
  | permanent n em hp hd => exact permanent_init_ok_inv h
  | temp n em hp ld => exact temp_init_ok_inv h

theorem runAll_ids {rs : List Request} : ∀ {c : Nat},
    (∀ x ∈ (runAll c rs).1, isOkResult x = true) →
    resultIds (runAll c rs).1 = List.range' c rs.length := by
  induction rs with
  | nil => intro c _; rfl
  | cons r rs ih =>
    intro c hok
    obtain ⟨res, c2, hrun⟩ : ∃ res c2, runRequest c r = (res, c2) :=
      ⟨(runRequest c r).1, (runRequest c r).2, rfl⟩
    have hcons : runAll c (r :: rs) = (res :: (runAll c2 rs).1, (runAll c2 rs).2) := by
      simp [runAll, hrun]
    have hok1 : isOkResult res = true := by
      have := hok res
      rw [hcons] at this
      exact this (by simp)
    obtain ⟨e, rfl⟩ : ∃ e, res = .ok e := by
      cases res with
      | ok e => exact ⟨e, rfl⟩
      | error err => cases hok1
    obtain ⟨hid, hc2⟩ := runRequest_ok_inv hrun
    have hokrest : ∀ x ∈ (runAll c2 rs).1, isOkResult x = true := by
      intro x hx
      have := hok x
      rw [hcons] at this
      exact this (by simp [hx])
    rw [hcons]
    simp only [resultIds, List.map_cons, List.length_cons]
    rw [List.range'_succ]
    subst hc2
    have := ih hokrest
    simp only [resultIds] at this
    rw [this]
    simp [hid]

/-! ## The claims

The witnesses below evaluate the model on concrete inputs through the
kernel, so the `Rat` arithmetic primitives are made semireducible for
the rest of this file. -/

attribute [local semireducible] Rat.ofScientific Rat.mul Rat.inv Rat.add Rat.sub

/-- C1: every employee id is assigned at construction from the single
class counter.  In any sequence of constructions that all succeed, the
ids are exactly `c, c+1, c+2, …` — each new object's id is strictly
greater than every earlier one and successive ids increase by 1 — and no
setter of the module ever changes an employee's `id_number` (the
`id_number` setter is commented out in the source). -/
theorem claim_C1_sequential_ids (c : Nat) (rs : List Request)
    (hok : ∀ x ∈ (runAll c rs).1, isOkResult x = true) :
    resultIds (runAll c rs).1 = List.range' c rs.length ∧
    (∀ (e : Employee) (v : List Char), ((set_name e v).1).id_number = e.id_number) ∧
    (∀ (e : Employee) (v : List Char), ((set_email e v).1).id_number = e.id_number) ∧
    (∀ (e : Employee) (v : List Char), ((set_image e v).1).id_number = e.id_number) ∧
    (∀ (e : Employee) (x : ℚ), ((set_yearly e x).1).id_number = e.id_number) ∧
    (∀ (e : Employee) (x : ℚ), ((set_hourly e x).1).id_number = e.id_number) ∧
    (∀ (e : Employee) (v : Int), ((set_role e v).1).id_number = e.id_number) ∧
    (∀ (e : Employee) (v : Int), ((set_department e v).1).id_number = e.id_number) ∧
    (∀ (e : Employee) (d : DateTime), ((set_hired_date e d).1).id_number = e.id_number) ∧
    (∀ (e : Employee) (d : DateTime), ((set_last_day e d).1).id_number = e.id_number) :=
  ⟨runAll_ids hok, set_name_fst_id, set_email_fst_id, set_image_fst_id,
   set_yearly_fst_id, set_hourly_fst_id, set_role_fst_id, set_department_fst_id,
   set_hired_date_fst_id, set_last_day_fst_id⟩

/-- Witness for C1 at a concrete two-element construction sequence
starting from counter 1. -/
theorem claim_C1_sequential_ids_witness :
    (∀ x ∈ (runAll 1 demoRequests).1, isOkResult x = true) ∧
    (resultIds (runAll 1 demoRequests).1 = List.range' 1 demoRequests.length ∧
     (∀ (e : Employee) (v : List Char), ((set_name e v).1).id_number = e.id_number) ∧
     (∀ (e : Employee) (v : List Char), ((set_email e v).1).id_number = e.id_number) ∧
     (∀ (e : Employee) (v : List Char), ((set_image e v).1).id_number = e.id_number) ∧
     (∀ (e : Employee) (x : ℚ), ((set_yearly e x).1).id_number = e.id_number) ∧
     (∀ (e : Employee) (x : ℚ), ((set_hourly e x).1).id_number = e.id_number) ∧
     (∀ (e : Employee) (v : Int), ((set_role e v).1).id_number = e.id_number) ∧
     (∀ (e : Employee) (v : Int), ((set_department e v).1).id_number = e.id_number) ∧
     (∀ (e : Employee) (d : DateTime), ((set_hired_date e d).1).id_number = e.id_number) ∧
     (∀ (e : Employee) (d : DateTime), ((set_last_day e d).1).id_number = e.id_number)) :=
  ⟨by decide, claim_C1_sequential_ids 1 demoRequests (by decide)⟩

/-- C2: the email setter succeeds exactly on a non-empty string
containing the fixed company domain `"@acme-machining.com"`; on every
other value it raises `ValueError` and leaves the record — in particular
the stored email — unchanged. -/
theorem claim_C2_email_setter (e : Employee) (v : List Char) :
    set_email e v =
      if v ≠ [] ∧ containsSub domainSuffix v = true
      then ({ e with email := v }, none)
      else (e, some HRError.valueError) :=
  set_email_eq e v

/-- C3: the yearly setter of a `Salaried` employee (hence of `Executive`
and `Manager`) succeeds exactly when the amount exceeds 50000; for any
amount `≤ 50000` — the boundary included — it raises `ValueError` and
the stored record is unchanged. -/
theorem claim_C3_yearly_setter (e : Employee) (x : ℚ) :
    set_yearly e x =
      if 50000 < x then ({ e with pay := x }, none)
      else (e, some HRError.valueError) :=
  set_yearly_eq e x

/-- C4: the hourly setter of an `Hourly` employee (hence of `Permanent`
and `Temp`) succeeds exactly on rates in the closed interval
`[15.00, 99.99]`, both endpoints accepted; outside it raises
`ValueError` and the stored record is unchanged. -/
theorem claim_C4_hourly_setter (e : Employee) (x : ℚ) :
    set_hourly e x =
      if 15 ≤ x ∧ x ≤ 99.99 then ({ e with pay := x }, none)
      else (e, some HRError.valueError) :=
  set_hourly_eq e x

/-- C5: the role setter accepts exactly the integers 1 (`ceo`),
2 (`cfo`), 3 (`cio`) and otherwise raises `InvalidRoleException`; the
department setter accepts exactly 1 (`accounting`), 2 (`finance`),
3 (`hr`), 4 (`r_and_d`), 5 (`machining`) and otherwise raises
`InvalidDepartmentException`; on failure the record is unchanged. -/
theorem claim_C5_role_department_setters (e : Employee) (v : Int) :
    (set_role e v =
      if v = 1 then ({ e with extra := .role .ceo }, none)
      else if v = 2 then ({ e with extra := .role .cfo }, none)
      else if v = 3 then ({ e with extra := .role .cio }, none)
      else (e, some HRError.invalidRoleException)) ∧
    (set_department e v =
      if v = 1 then ({ e with extra := .department .accounting }, none)
      else if v = 2 then ({ e with extra := .department .finance }, none)
      else if v = 3 then ({ e with extra := .department .hr }, none)
      else if v = 4 then ({ e with extra := .department .r_and_d }, none)
      else if v = 5 then ({ e with extra := .department .machining }, none)
      else (e, some HRError.invalidDepartmentException)) :=
  ⟨set_role_eq e v, set_department_eq e v⟩

/-- C6: every concrete `__repr__` is one comma-separated line holding,
in order: the type name, the name, the email, the image path, the pay
amount formatted to two decimals, and the type-specific attribute (role
value, department value, hired date, last day). -/
theorem claim_C6_repr_line :
    (∀ (nm em im : List Char) (idn : Nat) (pay : ℚ) (r : Role),
      employee_repr ⟨nm, em, im, idn, pay, .role r⟩ =
        joinComma ["Executive".toList, nm, em, im, format2dp pay, intRepr r.value]) ∧
    (∀ (nm em im : List Char) (idn : Nat) (pay : ℚ) (d : Department),
      employee_repr ⟨nm, em, im, idn, pay, .department d⟩ =
        joinComma ["Manager".toList, nm, em, im, format2dp pay, intRepr d.value]) ∧
    (∀ (nm em im : List Char) (idn : Nat) (pay : ℚ) (dt : DateTime),
      employee_repr ⟨nm, em, im, idn, pay, .hired_date dt⟩ =
        joinComma ["Permanent".toList, nm, em, im, format2dp pay, formatDT dt]) ∧
    (∀ (nm em im : List Char) (idn : Nat) (pay : ℚ) (dt : DateTime),
      employee_repr ⟨nm, em, im, idn, pay, .last_day dt⟩ =
        joinComma ["Temp".toList, nm, em, im, format2dp pay, formatDT dt]) := by
  refine ⟨?_, ?_, ?_, ?_⟩ <;>
    · intro nm em im idn pay x
      simp [employee_repr_fields, typeName, extraRepr]

/-- C7: contrary to the claim, `Salaried` and `Hourly` are instantiable:
both override `calc_pay` with a concrete method (employee.py lines 212
and 255), so Python's ABC machinery finds no remaining abstract method
and allows direct construction — only `Employee` itself is abstract.
`Salaried("Bob", "bob@acme-machining.com", "60000.00")` even runs to a
successfully constructed object. -/
theorem claim_C7_salaried_hourly_instantiable :
    instantiable PyClass.salaried = true ∧
    instantiable PyClass.hourly = true ∧
    instantiable PyClass.employee = false ∧
    instantiable PyClass.executive = true ∧
    instantiable PyClass.manager = true ∧
    instantiable PyClass.permanent = true ∧
    instantiable PyClass.temp = true ∧
    isOkResult
      (Salaried.init 1 "Bob".toList "bob@acme-machining.com".toList
        "60000.00".toList).1 = true ∧
    isOkResult
      (Hourly.init 1 "Bob".toList "bob@acme-machining.com".toList
        "20.00".toList).1 = true := by
  decide

/-- C8 (amended): the save/load round-trip restores every field except
the freshly assigned id, provided additionally that the pay amount is a
whole number of cents — `__repr__` formats pay with two decimals, so any
further precision is lost on reload. -/
theorem claim_C8_roundtrip (e : Employee) (fresh cents : Nat)
    (hwf : e.wf = true)
    (hn : ',' ∉ e.name) (hm : ',' ∉ e.email) (hi : ',' ∉ e.image)
    (hpay : e.pay = (cents : ℚ) / 100) :
    load_file_row fresh (splitOnComma (employee_repr e)) =
      (.ok { e with id_number := fresh }, fresh + 1) :=
  load_row_of_repr e fresh cents hwf hn hm hi hpay

/-- Witness for C8 at a concrete executive with pay 60000.50. -/
theorem claim_C8_roundtrip_witness :
    execAnn.wf = true ∧ (',' ∉ execAnn.name) ∧ (',' ∉ execAnn.email) ∧
    (',' ∉ execAnn.image) ∧ execAnn.pay = ((6000050 : Nat) : ℚ) / 100 ∧
    load_file_row 9 (splitOnComma (employee_repr execAnn)) =
      (.ok { execAnn with id_number := 9 }, 9 + 1) :=
  ⟨by decide, by decide, by decide, by decide, by decide,
   claim_C8_roundtrip execAnn 9 6000050 (by decide) (by decide) (by decide)
     (by decide) (by decide)⟩

/-- Counterexample to C8 as stated: the executive `execBob` has
comma-free fields and satisfies every class invariant, yet its salary
60000.123 is not a whole number of cents; saving and reloading its
record succeeds but yields pay 60000.12 ≠ 60000.123, so the rebuilt
employee does not have an equal pay amount. -/
theorem claim_C8_counterexample :
    execBob.wf = true ∧ (',' ∉ execBob.name) ∧ (',' ∉ execBob.email) ∧
    (',' ∉ execBob.image) ∧
    (load_file_row 7 (splitOnComma (employee_repr execBob))).1 =
      .ok { execBob with id_number := 7, pay := 1500003 / 25 } ∧
    ((1500003 : ℚ) / 25 ≠ execBob.pay) := by
  refine ⟨by decide, by decide, by decide, by decide, by decide, by decide⟩

/-- C9: `calc_pay` is fixed by the class — `yearly / 52` for the
salaried kinds and `hourly * 40` for the hourly kinds — and under the
field invariants every salaried weekly pay exceeds `50000 / 52` while
every hourly weekly pay lies in `[600.00, 3999.60]`. -/
theorem claim_C9_calc_pay (e : Employee) (hwf : e.wf = true) :
    (e.isSalaried = true →
      calc_pay e = e.pay / 52 ∧ 50000 / 52 < calc_pay e) ∧
    (e.isSalaried = false →
      calc_pay e = e.pay * 40 ∧ 600 ≤ calc_pay e ∧ calc_pay e ≤ 3999.60) := by
  simp only [Employee.wf, Bool.and_eq_true, decide_eq_true_eq] at hwf
  have hpb := hwf.1.2
  constructor
  · intro hs
    rw [hs] at hpb
    simp only [if_true] at hpb
    simp only [Bool.true_eq, decide_eq_true_eq] at hpb
    have hcp : calc_pay e = e.pay / 52 := by simp [calc_pay, hs]
    refine ⟨hcp, ?_⟩
    rw [hcp]
    have hp : (50000 : ℚ) < e.pay := by simpa using hpb
    linarith
  · intro hs
    rw [hs] at hpb
    simp only [Bool.false_eq_true, if_false, Bool.and_eq_true, decide_eq_true_eq] at hpb
    have hcp : calc_pay e = e.pay * 40 := by simp [calc_pay, hs]
    refine ⟨hcp, ?_, ?_⟩
    · rw [hcp]
      have := hpb.1
      linarith
    · rw [hcp]
      have := hpb.2
      have h99 : e.pay ≤ (99.99 : ℚ) := by simpa using this
      nlinarith [h99]

/-- Witness for C9 at the concrete executive `execAnn`. -/
theorem claim_C9_calc_pay_witness :
    execAnn.wf = true ∧
    ((execAnn.isSalaried = true →
       calc_pay execAnn = execAnn.pay / 52 ∧ 50000 / 52 < calc_pay execAnn) ∧
     (execAnn.isSalaried = false →
       calc_pay execAnn = execAnn.pay * 40 ∧ 600 ≤ calc_pay execAnn ∧
         calc_pay execAnn ≤ 3999.60)) :=
  ⟨by decide, claim_C9_calc_pay execAnn (by decide)⟩

/-- C10: every validating setter is atomic and frame-preserving — on
success it is exactly the update of its own field, and on failure the
returned record is the unmodified original (the source raises before
any assignment). -/
theorem claim_C10_setter_frames (e : Employee) (v : List Char) (q : ℚ) (i : Int) :
    (set_name e v =
      if 0 < v.length then ({ e with name := v }, none)
      else (e, some HRError.valueError)) ∧
    (set_email e v =
      if v ≠ [] ∧ containsSub domainSuffix v = true
      then ({ e with email := v }, none)
      else (e, some HRError.valueError)) ∧
    (set_image e v =
      if v ≠ [] then ({ e with image := v }, none)
      else (e, some HRError.valueError)) ∧
    (set_yearly e q =
      if 50000 < q then ({ e with pay := q }, none)
      else (e, some HRError.valueError)) ∧
    (set_hourly e q =
      if 15 ≤ q ∧ q ≤ 99.99 then ({ e with pay := q }, none)
      else (e, some HRError.valueError)) ∧
    (set_role e i =
      if i = 1 then ({ e with extra := .role .ceo }, none)
      else if i = 2 then ({ e with extra := .role .cfo }, none)
      else if i = 3 then ({ e with extra := .role .cio }, none)
      else (e, some HRError.invalidRoleException)) ∧
    (set_department e i =
      if i = 1 then ({ e with extra := .department .accounting }, none)
      else if i = 2 then ({ e with extra := .department .finance }, none)
      else if i = 3 then ({ e with extra := .department .hr }, none)
      else if i = 4 then ({ e with extra := .department .r_and_d }, none)
      else if i = 5 then ({ e with extra := .department .machining }, none)
      else (e, some HRError.invalidDepartmentException)) :=
  ⟨set_name_eq e v, set_email_eq e v, set_image_eq e v, set_yearly_eq e q,
   set_hourly_eq e q, set_role_eq e i, set_department_eq e i⟩

end HR
